import Mathlib

/-!
Verification development for the Ravyn web framework (dymmond/ravyn).

This file gives a shallow embedding of the parts of the code base that the
frozen claims are about:

* the boolean-composable permission system (`BasePermission` with the
  operators `&`, `|`, `^`, `~`, `-`) and its enforcement on routes
  (modelled from the spec; the permission classes themselves are not part
  of the provided sources, only their tests are),
* the exception middleware `ravyn/middleware/exceptions.py`
  (`RavynAPIException.get_exception_handler`, `create_exception_response`,
  `default_http_exception_handler`, the HTTP and websocket branches of
  `__call__`),
* `ravyn/middleware/asyncexitstack.py` (`AsyncExitStackMiddleware` and
  `_LazyAsyncExitStack`),
* the application introspection graph and its `to_dict` / `to_json`
  exports (modelled from the spec; the graph builder is not part of the
  provided sources, only `tests/test_introspection.py` is).
-/

namespace Ravyn

/-! ## Permission composition

Modelled from the spec: `Permission — a predicate object determining
whether a request may proceed, composable via boolean operators` and
`The permission composition (AND/OR/XOR/NOT/NOR over permission objects)`.
The concrete operator semantics follow
`tests/permissions/test_permissions_operations.py`: `&` is AND, `|` is OR,
`^` is XOR, `~` is NOT and `-` is NOR. A request is modelled abstractly by
a type `ρ`; a base permission is its `has_permission` predicate on the
request. -/

inductive Permission (ρ : Type) where
  | base (has_permission : ρ → Bool)
  | and (p q : Permission ρ)
  | or (p q : Permission ρ)
  | xor (p q : Permission ρ)
  | not (p : Permission ρ)
  | nor (p q : Permission ρ)

/-- Modelled from the spec: evaluating a composed permission object on a
request, as exercised by `tests/permissions/test_permissions_operations.py`. -/
def evalPermission {ρ : Type} : Permission ρ → ρ → Bool
  | .base f, r => f r
  | .and p q, r => evalPermission p r && evalPermission q r
  | .or p q, r => evalPermission p r || evalPermission q r
  | .xor p q, r => Bool.xor (evalPermission p r) (evalPermission q r)
  | .not p, r => !(evalPermission p r)
  | .nor p q, r => !(evalPermission p r || evalPermission q r)

/-- A minimal HTTP response: status code, optional JSON `detail` field. -/
structure SimpleResponse where
  status_code : Nat
  detail : Option String
deriving DecidableEq, Repr

/-- Modelled from the spec: the response produced when a permission denies a
request, as asserted throughout
`tests/permissions/test_permissions_operations.py`: HTTP 403 with detail
`You do not have permission to perform this action.`. -/
def permissionDeniedResponse : SimpleResponse :=
  { status_code := 403
    detail := some "You do not have permission to perform this action." }

/-- Modelled from the spec: the response of a handler that the request
reached, HTTP 200 (the test handlers return `None`, serialized with
status 200). -/
def handlerOkResponse : SimpleResponse :=
  { status_code := 200, detail := none }

/-- Modelled from the spec: enforcement of a route `permissions=[...]` list.
Each entry wraps the handler in turn and denies the request as soon as its
own check fails, so the request reaches the handler exactly when every
entry grants. -/
def dispatchWithPermissions {ρ : Type} (perms : List (Permission ρ)) (req : ρ) :
    SimpleResponse :=
  if perms.all (fun p => evalPermission p req) then handlerOkResponse
  else permissionDeniedResponse

/-! ## JSON values

A small model of the JSON-like values appearing in response bodies and in
the introspection-graph exports. -/

inductive Json where
  | str (s : String)
  | num (n : Nat)
  | arr (items : List Json)
  | obj (fields : List (String × Json))

/-- Python truthiness of a JSON-like value (`if extra:` in
`create_exception_response`): a string is truthy when non-empty, a number
when non-zero, a list or dict when non-empty. -/
def Json.truthy : Json → Bool
  | .str s => !s.isEmpty
  | .num n => n != 0
  | .arr items => !items.isEmpty
  | .obj fields => !fields.isEmpty

/-! ## Exceptions and the exception middleware
(`src/ravyn/middleware/exceptions.py`)

An exception instance is modelled by the attributes the middleware reads:
its method-resolution order (`type(exc).__mro__`, as class names, the exact
class first), the `isinstance` facts for `ravyn.exceptions.HTTPException`,
`lilya.exceptions.HTTPException` and `ravyn.exceptions.WebSocketException`,
and the data attributes `status_code`, `detail`, `headers`,
`extra.get("extra", {})`, the websocket close `code`, and `repr(exc)`. -/

structure Exc where
  mro : List String
  is_http_exception : Bool
  is_lilya_exception : Bool
  is_websocket_exception : Bool
  status_code : Nat
  detail : Option String
  headers : Option (List (String × String))
  extra_extra : Json
  code : Nat
  repr_str : String

/-- A key of the exception-handler mapping: Python uses a single dict whose
keys are either `int` status codes or exception classes. -/
inductive HandlerKey where
  | status (code : Nat)
  | excClass (name : String)
deriving DecidableEq, Repr

/-- The exception-handler mapping, as an association list (`dict.get`
returns the value of the matching key). -/
abbrev HandlerMap (α : Type) := List (HandlerKey × α)

/-- The walk over `type(exc).__mro__` in `get_exception_handler`: the
handler of the first class of the MRO that has one. -/
def find_mro_handler {α : Type} (exception_handlers : HandlerMap α) :
    List String → Option α
  | [] => none
  | c :: rest =>
    match exception_handlers.lookup (HandlerKey.excClass c) with
    | some handler => some handler
    | none => find_mro_handler exception_handlers rest

/-- `RavynAPIException.get_exception_handler`
(`src/ravyn/middleware/exceptions.py:150-172`). The status code is
`exc.status_code` for a Lilya `HTTPException` and 500 otherwise; an empty
mapping yields `None`; otherwise the status-code entry is preferred and the
MRO walk is the fallback. (The Python method reads `self.exception_handlers`
for the lookups; at its only call site that is the same mapping as its
argument.) -/
def get_exception_handler {α : Type} (exception_handlers : HandlerMap α)
    (exc : Exc) : Option α :=
  let status_code := if exc.is_lilya_exception then exc.status_code else 500
  if exception_handlers.isEmpty then none
  else
    match exception_handlers.lookup (HandlerKey.status status_code) with
    | some handler => some handler
    | none => find_mro_handler exception_handlers exc.mro

/-- An HTTP response as produced by the middleware: status code, JSON body
(a field list, `model_dump(exclude_none=True)`), and optional headers. -/
structure HttpResponse where
  status_code : Nat
  body : List (String × Json)
  headers : Option (List (String × String))

/-- The pydantic model `ResponseContent`
(`src/ravyn/middleware/exceptions.py:67-71`). -/
structure ResponseContent where
  detail : Option String
  extra : Option Json := none
  headers : Option (List (String × String)) := none
  status_code : Nat := 500

/-- `content.model_dump(exclude_none=True)`: the fields in declaration
order, omitting those whose value is `None`. -/
def ResponseContent.dump_exclude_none (c : ResponseContent) :
    List (String × Json) :=
  (match c.detail with
   | some d => [("detail", Json.str d)]
   | none => []) ++
  (match c.extra with
   | some e => [("extra", e)]
   | none => []) ++
  (match c.headers with
   | some hs => [("headers", Json.obj (hs.map fun p => (p.1, Json.str p.2)))]
   | none => []) ++
  [("status_code", Json.num c.status_code)]

/-- `RavynAPIException.create_exception_response`
(`src/ravyn/middleware/exceptions.py:134-148`). -/
def create_exception_response (exc : Exc) : HttpResponse :=
  let content : ResponseContent :=
    if exc.is_http_exception || exc.is_lilya_exception then
      let base : ResponseContent :=
        { detail := exc.detail, status_code := exc.status_code }
      if exc.is_http_exception then
        if exc.extra_extra.truthy then { base with extra := some exc.extra_extra }
        else base
      else base
    else { detail := some exc.repr_str }
  { status_code := content.status_code
    body := content.dump_exclude_none
    headers :=
      if exc.is_http_exception || exc.is_lilya_exception then exc.headers
      else none }

/-- Modelled from the spec: `ServerErrorMiddleware.debug_response` (the
donor framework's HTML debug page for server errors) is not part of the
provided sources; only its 500 status matters here. -/
def debug_response (exc : Exc) : HttpResponse :=
  { status_code := 500
    body := [("detail", Json.str exc.repr_str)]
    headers := none }

/-- `RavynAPIException.default_http_exception_handler`
(`src/ravyn/middleware/exceptions.py:122-132`). -/
def default_http_exception_handler (debug : Bool) (exc : Exc) : HttpResponse :=
  let status_code := if exc.is_lilya_exception then exc.status_code else 500
  if status_code == 500 && debug then debug_response exc
  else create_exception_response exc

/-- Which callable ends up as `exception_handler` in the HTTP branch of
`RavynAPIException.__call__` (`src/ravyn/middleware/exceptions.py:91-100`). -/
inductive HttpHandlerChoice (α : Type) where
  | registered (handler : α)
  | http_exception_handler
  | default_handler

/-- The handler-selection logic of the HTTP branch of
`RavynAPIException.__call__`. -/
def select_http_exception_handler {α : Type} (exception_handlers : HandlerMap α)
    (route_boundary : Bool) (exc : Exc) : HttpHandlerChoice α :=
  match get_exception_handler exception_handlers exc with
  | some handler => .registered handler
  | none =>
    if route_boundary && (exc.is_http_exception || exc.is_lilya_exception) then
      .http_exception_handler
    else
      .default_handler

/-- The close event sent by the websocket branch of
`RavynAPIException.__call__` (`src/ravyn/middleware/exceptions.py:109-120`). -/
structure WebSocketCloseEvent where
  code : Nat
  reason : Option String
deriving DecidableEq, Repr

/-- The code/reason computation of the websocket branch
(`src/ravyn/middleware/exceptions.py:109-117`),
`status.HTTP_500_INTERNAL_SERVER_ERROR + 4000 = 4500`. -/
def websocket_close_for (exc : Exc) : WebSocketCloseEvent :=
  if exc.is_websocket_exception then
    { code := exc.code, reason := exc.detail }
  else if exc.is_lilya_exception then
    { code := exc.status_code + 4000, reason := exc.detail }
  else
    { code := 500 + 4000, reason := some exc.repr_str }

/-- The observable outcome of one `RavynAPIException.__call__` invocation. -/
inductive AsgiOutcome where
  | completed
  | http_response (resp : HttpResponse)
  | websocket_close (event : WebSocketCloseEvent)
  | reraised (exc : Exc)

/-- `RavynAPIException.__call__` (`src/ravyn/middleware/exceptions.py:87-120`).
The wrapped app either returns (`app_raises = none`) or raises an
exception. Registered handlers and `ravyn.exception_handlers.http_exception_handler`
are abstract response-producing callables (`interp`, `http_exc_resp`);
`route_boundary` models `scope.get("_ravyn_route_boundary")` and
`scope_is_http` whether `scope["type"]` is `http` (the alternative being a
websocket scope). -/
def ravyn_api_exception_call {α : Type} (interp : α → Exc → HttpResponse)
    (http_exc_resp : Exc → HttpResponse) (exception_handlers : HandlerMap α)
    (debug : Bool) (scope_is_http route_boundary : Bool)
    (app_raises : Option Exc) : AsgiOutcome :=
  match app_raises with
  | none => .completed
  | some ex =>
    if scope_is_http then
      .http_response
        (match select_http_exception_handler exception_handlers route_boundary ex with
         | .registered handler => interp handler ex
         | .http_exception_handler => http_exc_resp ex
         | .default_handler => default_http_exception_handler debug ex)
    else
      .websocket_close (websocket_close_for ex)

/-! ## AsyncExitStackMiddleware (`src/ravyn/middleware/asyncexitstack.py`) -/

/-- A value stored in an ASGI scope dict by this middleware. -/
inductive ScopeValue where
  | exit_stack
  | boolean (b : Bool)
deriving DecidableEq, Repr

/-- An ASGI scope as a string-keyed dict: assignment prepends an entry and
`List.lookup` returns the most recent assignment. -/
abbrev Scope := List (String × ScopeValue)

/-- What the wrapped app does when called: whether it touches (and thereby
materializes) the lazy exit stack placed in the scope, and the exception it
raises, if any (`none` = the app returns normally). Exceptions are opaque
(`ε`). -/
structure AppBehaviour (ε : Type) where
  materializes_stack : Bool
  raises : Option ε

/-- The observable trace of one `AsyncExitStackMiddleware.__call__`
(`src/ravyn/middleware/asyncexitstack.py:49-68`): the scope the wrapped app
received, whether the `finally` block ran `aclose` on the lazy stack,
whether a materialized `AsyncExitStack` was actually closed (`aclose` is a
no-op when the stack was never materialized,
`src/ravyn/middleware/asyncexitstack.py:22-24`), and the exception
re-raised at the end. -/
structure MiddlewareTrace (ε : Type) where
  scope_seen_by_app : Scope
  aclose_called : Bool
  stack_closed : Bool
  raised : Option ε

/-- `AsyncExitStackMiddleware.__call__`: the scope receives a lazy
`AsyncExitStack` under `config.context_name` and
`_ravyn_route_boundary = True`, the wrapped app runs, the `finally` block
calls `aclose` on the lazy stack, and the caught exception — if any — is
re-raised unchanged. (The `traceback.print_exception` on `debug` has no
observable effect modelled here.) -/
def asyncExitStackMiddleware_call {ε : Type} (app : Scope → AppBehaviour ε)
    (context_name : String) (scope : Scope) : MiddlewareTrace ε :=
  let scope1 : Scope :=
    ("_ravyn_route_boundary", ScopeValue.boolean true)
      :: (context_name, ScopeValue.exit_stack) :: scope
  let out := app scope1
  { scope_seen_by_app := scope1
    aclose_called := true
    stack_closed := out.materializes_stack
    raised := out.raises }

/-! ## The introspection graph

Modelled from the spec: `an introspection "graph" that models the
assembled application (routes, middleware, includes, permissions) as
nodes/edges for debugging and OpenAPI export`; the shapes of the exports
`to_dict` and `to_json` follow `tests/test_introspection.py` (nodes carry
an `id`, a `kind` and metadata; edges carry a `source` and a `target` node
id). The graph builder itself is not among the provided sources. -/

structure GraphNode where
  id : Nat
  kind : String
  label : String
deriving DecidableEq, Repr

structure GraphEdge where
  source : Nat
  target : Nat
deriving DecidableEq, Repr

structure Graph where
  nodes : List GraphNode
  edges : List GraphEdge
deriving DecidableEq, Repr

/-- A route of an assembled application: a `Gateway` path and the names of
its permission classes. -/
structure RouteDesc where
  path : String
  permissions : List String
deriving DecidableEq, Repr

/-- An `Include` of an assembled application: a mount path and the routes
of the mounted child application. -/
structure IncludeDesc where
  path : String
  routes : List RouteDesc
deriving DecidableEq, Repr

/-- An assembled application: its middleware names, routes and includes. -/
structure AppDesc where
  middleware : List String
  routes : List RouteDesc
  includes : List IncludeDesc
deriving DecidableEq, Repr

/-- Permission nodes of one route, with edges from the route node; ids are
allocated sequentially from `next_id`. Returns the nodes, the edges and the
next free id. -/
def buildPermissionNodes (route_id : Nat) (next_id : Nat) :
    List String → List GraphNode × List GraphEdge × Nat
  | [] => ([], [], next_id)
  | p :: rest =>
    let t := buildPermissionNodes route_id (next_id + 1) rest
    ({ id := next_id, kind := "permission", label := p } :: t.1,
     { source := route_id, target := next_id } :: t.2.1, t.2.2)

/-- Middleware nodes, with edges from the parent node. -/
def buildMiddlewareNodes (parent : Nat) (next_id : Nat) :
    List String → List GraphNode × List GraphEdge × Nat
  | [] => ([], [], next_id)
  | m :: rest =>
    let t := buildMiddlewareNodes parent (next_id + 1) rest
    ({ id := next_id, kind := "middleware", label := m } :: t.1,
     { source := parent, target := next_id } :: t.2.1, t.2.2)

/-- Route nodes with their permission children, with edges from the parent
node to each route and from each route to its permissions. -/
def buildRouteNodes (parent : Nat) (next_id : Nat) :
    List RouteDesc → List GraphNode × List GraphEdge × Nat
  | [] => ([], [], next_id)
  | r :: rest =>
    let route_id := next_id
    let tp := buildPermissionNodes route_id (route_id + 1) r.permissions
    let tr := buildRouteNodes parent tp.2.2 rest
    (({ id := route_id, kind := "route", label := r.path } :: tp.1) ++ tr.1,
     ({ source := parent, target := route_id } :: tp.2.1) ++ tr.2.1, tr.2.2)

/-- Include nodes with their mounted routes, with edges from the parent
node to each include and from each include to its routes. -/
def buildIncludeNodes (parent : Nat) (next_id : Nat) :
    List IncludeDesc → List GraphNode × List GraphEdge × Nat
  | [] => ([], [], next_id)
  | inc :: rest =>
    let include_id := next_id
    let tr := buildRouteNodes include_id (include_id + 1) inc.routes
    let ti := buildIncludeNodes parent tr.2.2 rest
    (({ id := include_id, kind := "include", label := inc.path } :: tr.1) ++ ti.1,
     ({ source := parent, target := include_id } :: tr.2.1) ++ ti.2.1, ti.2.2)

/-- Modelled from the spec: the introspection graph of an assembled
application — an application node (id 0) with its middleware, routes
(each with its permissions) and includes (each with its routes) as
children. -/
def buildGraph (app : AppDesc) : Graph :=
  let app_node : GraphNode := { id := 0, kind := "application", label := "app" }
  let tm := buildMiddlewareNodes 0 1 app.middleware
  let tr := buildRouteNodes 0 tm.2.2 app.routes
  let ti := buildIncludeNodes 0 tr.2.2 app.includes
  { nodes := app_node :: (tm.1 ++ tr.1 ++ ti.1)
    edges := tm.2.1 ++ tr.2.1 ++ ti.2.1 }

/-- JSON form of a node, as in `graph.to_dict()["nodes"]`. -/
def nodeToJson (n : GraphNode) : Json :=
  .obj [("id", .num n.id), ("kind", .str n.kind), ("label", .str n.label)]

/-- JSON form of an edge, as in `graph.to_dict()["edges"]`. -/
def edgeToJson (e : GraphEdge) : Json :=
  .obj [("source", .num e.source), ("target", .num e.target)]

/-- Modelled from the spec: `graph.to_dict()`, a dict with a `nodes` list
and an `edges` list. -/
def Graph.to_dict (g : Graph) : Json :=
  .obj [("nodes", .arr (g.nodes.map nodeToJson)),
        ("edges", .arr (g.edges.map edgeToJson))]

/-- Field access on a JSON object (`data["nodes"]` etc.). -/
def jsonField (j : Json) (key : String) : Option Json :=
  match j with
  | .obj fields => fields.lookup key
  | _ => none

/-! ### JSON serialization of the graph export

Modelled from the spec: `graph.to_json()` serializes `graph.to_dict()` and
`serializer.loads` parses it back. Serialized JSON is modelled as a token
stream. -/

inductive JsonToken where
  | lbrace | rbrace | lbrack | rbrack | colon | comma
  | str (s : String)
  | num (n : Nat)
deriving DecidableEq, Repr

/-- The serialized form of one node object. -/
def nodeTokens (n : GraphNode) : List JsonToken :=
  [.lbrace, .str "id", .colon, .num n.id, .comma,
   .str "kind", .colon, .str n.kind, .comma,
   .str "label", .colon, .str n.label, .rbrace]

/-- The serialized form of one edge object. -/
def edgeTokens (e : GraphEdge) : List JsonToken :=
  [.lbrace, .str "source", .colon, .num e.source, .comma,
   .str "target", .colon, .num e.target, .rbrace]

/-- Comma-separated concatenation of serialized items. -/
def commaSeparated : List (List JsonToken) → List JsonToken
  | [] => []
  | [x] => x
  | x :: rest => x ++ [JsonToken.comma] ++ commaSeparated rest

/-- The serialized form of a JSON array of items. -/
def arrayTokens (items : List (List JsonToken)) : List JsonToken :=
  [.lbrack] ++ commaSeparated items ++ [.rbrack]

/-- Modelled from the spec: `graph.to_json()` — the serialized form of
`graph.to_dict()`. -/
def Graph.to_json (g : Graph) : List JsonToken :=
  [.lbrace, .str "nodes", .colon] ++ arrayTokens (g.nodes.map nodeTokens) ++
  [.comma, .str "edges", .colon] ++ arrayTokens (g.edges.map edgeTokens) ++
  [.rbrace]

/-- Parse the items of a serialized node array after its opening bracket:
a comma-separated sequence of three-field objects closed by `]`. -/
def parseNodeItems : List JsonToken → Option (List Json × List JsonToken)
  | .lbrace :: .str k1 :: .colon :: .num v1 :: .comma
      :: .str k2 :: .colon :: .str v2 :: .comma
      :: .str k3 :: .colon :: .str v3 :: .rbrace :: sep :: rest =>
    (match sep with
     | .comma =>
       (match parseNodeItems rest with
        | some (items, rem) =>
          some (Json.obj [(k1, .num v1), (k2, .str v2), (k3, .str v3)] :: items,
            rem)
        | none => none)
     | .rbrack =>
       some ([Json.obj [(k1, .num v1), (k2, .str v2), (k3, .str v3)]], rest)
     | _ => none)
  | _ => none

/-- Parse a serialized node array, including the empty one. -/
def parseNodeArray : List JsonToken → Option (List Json × List JsonToken)
  | .lbrack :: rest =>
    (match rest with
     | .rbrack :: rest2 => some ([], rest2)
     | _ => parseNodeItems rest)
  | _ => none

/-- Parse the items of a serialized edge array after its opening bracket:
a comma-separated sequence of two-field objects closed by `]`. -/
def parseEdgeItems : List JsonToken → Option (List Json × List JsonToken)
  | .lbrace :: .str k1 :: .colon :: .num v1 :: .comma
      :: .str k2 :: .colon :: .num v2 :: .rbrace :: sep :: rest =>
    (match sep with
     | .comma =>
       (match parseEdgeItems rest with
        | some (items, rem) =>
          some (Json.obj [(k1, .num v1), (k2, .num v2)] :: items, rem)
        | none => none)
     | .rbrack =>
       some ([Json.obj [(k1, .num v1), (k2, .num v2)]], rest)
     | _ => none)
  | _ => none

/-- Parse a serialized edge array, including the empty one. -/
def parseEdgeArray : List JsonToken → Option (List Json × List JsonToken)
  | .lbrack :: rest =>
    (match rest with
     | .rbrack :: rest2 => some ([], rest2)
     | _ => parseEdgeItems rest)
  | _ => none

/-- The tail of the graph parse after the node array: the `edges` key and
its array, then the closing brace. -/
def finishGraphParse (nk : String) (ns : List Json) :
    List JsonToken → Option Json
  | .comma :: .str ek :: .colon :: rest2 =>
    (match parseEdgeArray rest2 with
     | some (es, rest3) =>
       (match rest3 with
        | [.rbrace] => some (.obj [(nk, .arr ns), (ek, .arr es)])
        | _ => none)
     | none => none)
  | _ => none

/-- Modelled from the spec: `serializer.loads` on a serialized graph
export — parse the token stream back into the dict. -/
def loadsGraphJson : List JsonToken → Option Json
  | .lbrace :: .str nk :: .colon :: rest =>
    (match parseNodeArray rest with
     | some (ns, rest1) => finishGraphParse nk ns rest1
     | none => none)
  | _ => none

end Ravyn

namespace Ravyn

/-- C1: the composition of permission objects evaluates as its boolean
operator dictates — `&` grants iff both grant, `|` iff at least one grants,
`^` iff exactly one grants, `~` iff the operand denies, `-` (NOR) iff
neither grants — and a request guarded by the composed permission receives
HTTP 403 with detail `You do not have permission to perform this action.`
when the composition denies, while a granted request reaches the handler
(HTTP 200). -/
theorem permission_composition_correct {ρ : Type} (p q c : Permission ρ) (r : ρ) :
    (evalPermission (.and p q) r = true ↔
      evalPermission p r = true ∧ evalPermission q r = true) ∧
    (evalPermission (.or p q) r = true ↔
      evalPermission p r = true ∨ evalPermission q r = true) ∧
    (evalPermission (.xor p q) r = true ↔
      ¬(evalPermission p r = evalPermission q r)) ∧
    (evalPermission (.not p) r = true ↔ evalPermission p r = false) ∧
    (evalPermission (.nor p q) r = true ↔
      evalPermission p r = false ∧ evalPermission q r = false) ∧
    (dispatchWithPermissions [c] r =
      if evalPermission c r = true then handlerOkResponse
      else permissionDeniedResponse) ∧
    permissionDeniedResponse.status_code = 403 ∧
    permissionDeniedResponse.detail =
      some "You do not have permission to perform this action." ∧
    handlerOkResponse.status_code = 200 := by
  refine ⟨?_, ?_, ?_, ?_, ?_, ?_, rfl, rfl, rfl⟩
  · simp [evalPermission]
  · simp [evalPermission]
  · simp only [evalPermission]
    cases hp : evalPermission p r <;> cases hq : evalPermission q r <;> simp
  · simp [evalPermission]
  · simp only [evalPermission]
    cases hp : evalPermission p r <;> cases hq : evalPermission q r <;> simp
  · simp [dispatchWithPermissions, List.all]

/-- C7: a route's `permissions` list acts as a conjunction — the request
reaches the handler exactly when every entry grants, and any single
failing entry yields the HTTP 403 denial regardless of the other
entries. -/
theorem permission_list_is_conjunction {ρ : Type} (perms : List (Permission ρ)) (req : ρ) :
    (dispatchWithPermissions perms req = handlerOkResponse ↔
      ∀ p ∈ perms, evalPermission p req = true) ∧
    (∀ p ∈ perms, evalPermission p req = false →
      dispatchWithPermissions perms req = permissionDeniedResponse) := by
  have hne : permissionDeniedResponse ≠ handlerOkResponse := by
    simp [permissionDeniedResponse, handlerOkResponse]
  constructor
  · constructor
    · intro h p hp
      by_contra hfalse
      have hnotall : perms.all (fun p => evalPermission p req) = false := by
        rw [List.all_eq_false]
        exact ⟨p, hp, hfalse⟩
      rw [dispatchWithPermissions, hnotall] at h
      exact hne (by simpa using h)
    · intro h
      have hall : perms.all (fun p => evalPermission p req) = true :=
        List.all_eq_true.mpr h
      rw [dispatchWithPermissions, hall]
      rfl
  · intro p hp hfalse
    have hnotall : perms.all (fun p => evalPermission p req) = false := by
      rw [List.all_eq_false]
      exact ⟨p, hp, by simp [hfalse]⟩
    rw [dispatchWithPermissions, hnotall]
    rfl

/-- Witness for C7: with a failing first entry and a granting second entry,
the dispatch denies the request. -/
theorem permission_list_is_conjunction_witness :
    dispatchWithPermissions
      [Permission.base (fun (_ : Unit) => false), Permission.base (fun _ => true)] ()
      = permissionDeniedResponse :=
  (permission_list_is_conjunction
      [Permission.base (fun (_ : Unit) => false), Permission.base (fun _ => true)] ()).2
    (Permission.base (fun _ => false)) (List.Mem.head _) rfl

/-- The MRO walk of `get_exception_handler` is the first hit of the handler
lookup along `type(exc).__mro__`. -/
theorem find_mro_handler_eq_findSome {α : Type} (m : HandlerMap α) (l : List String) :
    find_mro_handler m l =
      l.findSome? fun c => m.lookup (HandlerKey.excClass c) := by
  induction l with
  | nil => rfl
  | cons c rest ih =>
    simp only [find_mro_handler, List.findSome?_cons]
    cases m.lookup (HandlerKey.excClass c) <;> simp [ih]

/-- C2: `get_exception_handler` first looks up the handler registered for
the status code (`exc.status_code` for a Lilya `HTTPException`, 500 for any
other exception) and returns it if present; otherwise it walks
`type(exc).__mro__` in order and returns the handler of the first class
that has one; otherwise it returns `none` (also when the handler map is
empty). In particular the status-code lookup takes precedence: a handler
registered for status 500 is selected for every non-HTTP exception even
when a handler for the exception's own class is registered. -/
theorem get_exception_handler_spec {α : Type} (handlers : HandlerMap α) (exc : Exc) :
    (get_exception_handler handlers exc =
      Option.or
        (handlers.lookup (HandlerKey.status
          (if exc.is_lilya_exception then exc.status_code else 500)))
        (exc.mro.findSome? fun c => handlers.lookup (HandlerKey.excClass c))) ∧
    (∀ h : α, exc.is_lilya_exception = false →
      handlers.lookup (HandlerKey.status 500) = some h →
      get_exception_handler handlers exc = some h) := by
  constructor
  · by_cases hE : handlers.isEmpty
    · have : handlers = [] := List.isEmpty_iff.mp hE
      subst this
      simp [get_exception_handler]
      exact (List.findSome?_eq_none_iff.mpr fun _ _ => rfl).symm
    · rw [get_exception_handler]
      simp only [hE, if_false, Bool.false_eq_true]
      cases hl : handlers.lookup (HandlerKey.status
          (if exc.is_lilya_exception then exc.status_code else 500)) with
      | none => simp [find_mro_handler_eq_findSome, Option.or]
      | some h => simp [Option.or]
  · intro h hlil h500
    have hne : handlers.isEmpty = false := by
      cases handlers with
      | nil => simp at h500
      | cons a l => rfl
    rw [get_exception_handler]
    simp [hlil, hne, h500]

/-- Witness for C2: for a plain `ValueError`-like exception (not a Lilya
`HTTPException`), a handler registered for status 500 is selected even
though the exception's own class also has a registered handler. -/
theorem get_exception_handler_spec_witness :
    get_exception_handler
      [(HandlerKey.status 500, "h500"), (HandlerKey.excClass "ValueError", "hVE")]
      { mro := ["ValueError", "Exception", "BaseException", "object"]
        is_http_exception := false
        is_lilya_exception := false
        is_websocket_exception := false
        status_code := 0
        detail := none
        headers := none
        extra_extra := Json.obj []
        code := 0
        repr_str := "ValueError()" } = some "h500" :=
  (get_exception_handler_spec
      [(HandlerKey.status 500, "h500"), (HandlerKey.excClass "ValueError", "hVE")]
      { mro := ["ValueError", "Exception", "BaseException", "object"]
        is_http_exception := false
        is_lilya_exception := false
        is_websocket_exception := false
        status_code := 0
        detail := none
        headers := none
        extra_extra := Json.obj []
        code := 0
        repr_str := "ValueError()" }).2 "h500" rfl (by decide)

/-- C3: on an HTTP-scope request whose wrapped app raises, the middleware
always sends a response (never re-raises): a handler found by
`get_exception_handler` is used; otherwise, when the scope carries
`_ravyn_route_boundary` and the exception is an `HTTPException` or Lilya
`HTTPException`, `http_exception_handler` is used; otherwise
`default_http_exception_handler` is used, producing status
`exc.status_code` for HTTP-exception-like objects and 500 for any other
exception. (`hier` is the class-hierarchy fact that
`ravyn.exceptions.HTTPException` subclasses the Lilya `HTTPException`.) -/
theorem http_exception_branch_spec {α : Type} (interp : α → Exc → HttpResponse)
    (http_exc_resp : Exc → HttpResponse) (handlers : HandlerMap α)
    (debug route_boundary : Bool) (exc : Exc)
    (hier : exc.is_http_exception = true → exc.is_lilya_exception = true) :
    (∃ resp, ravyn_api_exception_call interp http_exc_resp handlers debug
        true route_boundary (some exc) = AsgiOutcome.http_response resp) ∧
    (∀ h, get_exception_handler handlers exc = some h →
      ravyn_api_exception_call interp http_exc_resp handlers debug
        true route_boundary (some exc)
        = AsgiOutcome.http_response (interp h exc)) ∧
    (get_exception_handler handlers exc = none →
      (route_boundary && (exc.is_http_exception || exc.is_lilya_exception)) = true →
      ravyn_api_exception_call interp http_exc_resp handlers debug
        true route_boundary (some exc)
        = AsgiOutcome.http_response (http_exc_resp exc)) ∧
    (get_exception_handler handlers exc = none →
      (route_boundary && (exc.is_http_exception || exc.is_lilya_exception)) = false →
      ravyn_api_exception_call interp http_exc_resp handlers debug
        true route_boundary (some exc)
        = AsgiOutcome.http_response (default_http_exception_handler debug exc)) ∧
    ((default_http_exception_handler debug exc).status_code =
      if exc.is_http_exception || exc.is_lilya_exception then exc.status_code
      else 500) := by
  refine ⟨⟨_, rfl⟩, ?_, ?_, ?_, ?_⟩
  · intro h hh
    simp [ravyn_api_exception_call, select_http_exception_handler, hh]
  · intro hn hb
    simp [ravyn_api_exception_call, select_http_exception_handler, hn, hb]
  · intro hn hb
    simp [ravyn_api_exception_call, select_http_exception_handler, hn, hb]
  · cases hl : exc.is_lilya_exception with
    | true =>
      rw [default_http_exception_handler]
      simp only [hl, if_true]
      by_cases h5 : (exc.status_code == 500 && debug) = true
      · have hand := (Bool.and_eq_true _ _).mp h5
        have h500 : exc.status_code = 500 := by simpa using hand.1
        simp [h5, hand.2, debug_response, h500, hl]
      · rw [if_neg (by simpa using h5)]
        simp only [hl, Bool.or_true, if_true]
        rw [create_exception_response]
        simp only [Bool.or_true, if_true]
        cases hh : exc.is_http_exception <;>
          cases ht : exc.extra_extra.truthy <;>
          simp [hh, ht, hl]
    | false =>
      have hhttp : exc.is_http_exception = false := by
        cases hh : exc.is_http_exception with
        | false => rfl
        | true => rw [hier hh] at hl; exact absurd hl (by simp)
      rw [default_http_exception_handler]
      simp only [hl, if_false, hhttp, Bool.or_false, Bool.false_eq_true]
      by_cases hd : debug
      · simp [hd, debug_response]
      · simp [hd, create_exception_response, hhttp, hl]

/-- Witness for C3: with no registered handlers, no route boundary and a
plain `RuntimeError`-like exception, the middleware answers with the
default handler's response. -/
theorem http_exception_branch_spec_witness :
    ravyn_api_exception_call
      (fun (_ : Unit) _ => { status_code := 0, body := [], headers := none })
      (fun _ => { status_code := 0, body := [], headers := none })
      [] false true false
      (some { mro := ["RuntimeError", "Exception", "BaseException", "object"]
              is_http_exception := false
              is_lilya_exception := false
              is_websocket_exception := false
              status_code := 0
              detail := none
              headers := none
              extra_extra := Json.obj []
              code := 0
              repr_str := "RuntimeError()" })
      = AsgiOutcome.http_response
          (default_http_exception_handler false
            { mro := ["RuntimeError", "Exception", "BaseException", "object"]
              is_http_exception := false
              is_lilya_exception := false
              is_websocket_exception := false
              status_code := 0
              detail := none
              headers := none
              extra_extra := Json.obj []
              code := 0
              repr_str := "RuntimeError()" }) :=
  (http_exception_branch_spec
      (fun (_ : Unit) _ => { status_code := 0, body := [], headers := none })
      (fun _ => { status_code := 0, body := [], headers := none })
      [] false false
      { mro := ["RuntimeError", "Exception", "BaseException", "object"]
        is_http_exception := false
        is_lilya_exception := false
        is_websocket_exception := false
        status_code := 0
        detail := none
        headers := none
        extra_extra := Json.obj []
        code := 0
        repr_str := "RuntimeError()" }
      (fun h => nomatch h)).2.2.2.1 rfl rfl

/-- C4: `create_exception_response` maps an `HTTPException` or Lilya
`HTTPException` to a JSON response with status `exc.status_code`, a body
carrying `detail = exc.detail` and `status_code = exc.status_code` (plus an
`extra` field when a `ravyn` `HTTPException` carries a truthy
`extra["extra"]`), and the exception's headers; any other exception maps to
status 500 with `detail = repr(exc)`; fields whose value is `None` are
omitted from the body. -/
theorem create_exception_response_spec (exc : Exc) :
    ((exc.is_http_exception || exc.is_lilya_exception) = true →
      (create_exception_response exc).status_code = exc.status_code ∧
      (create_exception_response exc).body.lookup "detail"
        = exc.detail.map Json.str ∧
      (create_exception_response exc).body.lookup "status_code"
        = some (Json.num exc.status_code) ∧
      ((create_exception_response exc).body.lookup "extra"
        = if exc.is_http_exception && exc.extra_extra.truthy
          then some exc.extra_extra else none) ∧
      (create_exception_response exc).headers = exc.headers) ∧
    ((exc.is_http_exception || exc.is_lilya_exception) = false →
      (create_exception_response exc).status_code = 500 ∧
      (create_exception_response exc).body.lookup "detail"
        = some (Json.str exc.repr_str) ∧
      (create_exception_response exc).body.lookup "status_code"
        = some (Json.num 500) ∧
      (create_exception_response exc).headers = none) ∧
    (create_exception_response exc).body.lookup "headers" = none := by
  have hsd : ("status_code" == "detail") = false := by decide
  have hse : ("status_code" == "extra") = false := by decide
  have hed : ("extra" == "detail") = false := by decide
  have hes : ("extra" == "status_code") = false := by decide
  have hde : ("detail" == "extra") = false := by decide
  have hds : ("detail" == "status_code") = false := by decide
  have hhd : ("headers" == "detail") = false := by decide
  have hhe : ("headers" == "extra") = false := by decide
  have hhs : ("headers" == "status_code") = false := by decide
  refine ⟨?_, ?_, ?_⟩
  · intro hlike
    rw [create_exception_response]
    simp only [hlike, if_true]
    cases hh : exc.is_http_exception <;>
      cases ht : exc.extra_extra.truthy <;>
      cases hd : exc.detail <;>
        simp [hh, ht, hd, ResponseContent.dump_exclude_none, List.lookup,
          hsd, hse, hed, hes, hde, hds]
  · intro hlike
    rw [create_exception_response]
    simp only [hlike, if_false, Bool.false_eq_true]
    simp [ResponseContent.dump_exclude_none, List.lookup, hsd]
  · rw [create_exception_response]
    cases hlike : (exc.is_http_exception || exc.is_lilya_exception) <;>
      cases hh : exc.is_http_exception <;>
      cases ht : exc.extra_extra.truthy <;>
      cases hd : exc.detail <;>
        simp [hlike, hh, ht, hd, ResponseContent.dump_exclude_none, List.lookup,
          hhd, hhe, hhs]

/-- Witness for C4: a Lilya-`HTTPException`-like exception with status 404
and headers keeps its headers on the response. -/
theorem create_exception_response_spec_witness :
    (create_exception_response
      { mro := ["HTTPException", "Exception", "BaseException", "object"]
        is_http_exception := false
        is_lilya_exception := true
        is_websocket_exception := false
        status_code := 404
        detail := some "Not Found"
        headers := some [("x-key", "x-value")]
        extra_extra := Json.obj []
        code := 0
        repr_str := "HTTPException(404)" }).headers = some [("x-key", "x-value")] :=
  ((create_exception_response_spec
      { mro := ["HTTPException", "Exception", "BaseException", "object"]
        is_http_exception := false
        is_lilya_exception := true
        is_websocket_exception := false
        status_code := 404
        detail := some "Not Found"
        headers := some [("x-key", "x-value")]
        extra_extra := Json.obj []
        code := 0
        repr_str := "HTTPException(404)" }).1 rfl).2.2.2.2

/-- C8: on a websocket-scope request the middleware never re-raises;
it sends a `websocket.close` event whose code and reason are determined by
the exception: a `WebSocketException` closes with its own code and detail,
a Lilya `HTTPException` with code `exc.status_code + 4000` and the
exception's detail, and any other exception with code 4500 and reason
`repr(ex)`. -/
theorem websocket_branch_spec {α : Type} (interp : α → Exc → HttpResponse)
    (http_exc_resp : Exc → HttpResponse) (handlers : HandlerMap α)
    (debug route_boundary : Bool) (exc : Exc) :
    (ravyn_api_exception_call interp http_exc_resp handlers debug
      false route_boundary (some exc)
      = AsgiOutcome.websocket_close (websocket_close_for exc)) ∧
    (exc.is_websocket_exception = true →
      websocket_close_for exc = { code := exc.code, reason := exc.detail }) ∧
    (exc.is_websocket_exception = false → exc.is_lilya_exception = true →
      websocket_close_for exc
        = { code := exc.status_code + 4000, reason := exc.detail }) ∧
    (exc.is_websocket_exception = false → exc.is_lilya_exception = false →
      websocket_close_for exc
        = { code := 4500, reason := some exc.repr_str }) := by
  refine ⟨rfl, ?_, ?_, ?_⟩
  · intro hws
    simp [websocket_close_for, hws]
  · intro hws hlil
    simp [websocket_close_for, hws, hlil]
  · intro hws hlil
    simp [websocket_close_for, hws, hlil]

/-- Witness for C8: a `WebSocketException`-like exception closes with its
own code and detail. -/
theorem websocket_branch_spec_witness :
    websocket_close_for
      { mro := ["WebSocketException", "Exception", "BaseException", "object"]
        is_http_exception := false
        is_lilya_exception := false
        is_websocket_exception := true
        status_code := 0
        detail := some "denied"
        headers := none
        extra_extra := Json.obj []
        code := 1008
        repr_str := "WebSocketException(1008)" }
      = { code := 1008, reason := some "denied" } :=
  (websocket_branch_spec
      (fun (_ : Unit) _ => { status_code := 0, body := [], headers := none })
      (fun _ => { status_code := 0, body := [], headers := none })
      [] false false
      { mro := ["WebSocketException", "Exception", "BaseException", "object"]
        is_http_exception := false
        is_lilya_exception := false
        is_websocket_exception := true
        status_code := 0
        detail := some "denied"
        headers := none
        extra_extra := Json.obj []
        code := 1008
        repr_str := "WebSocketException(1008)" }).2.1 rfl

/-- C9: before calling the wrapped app, `AsyncExitStackMiddleware` gives
the scope a lazy `AsyncExitStack` under the configured context name and
sets `_ravyn_route_boundary` to `True`; afterwards it always runs the
`finally` close of the exit stack (which actually closes a stack only when
the app materialized it) and re-raises exactly the exception the app
raised, so the exception is propagated unchanged and the stack is always
closed. -/
theorem asyncExitStack_middleware_spec {ε : Type} (app : Scope → AppBehaviour ε)
    (context_name : String) (scope : Scope)
    (hcn : context_name ≠ "_ravyn_route_boundary") :
    ((asyncExitStackMiddleware_call app context_name scope).scope_seen_by_app.lookup
        "_ravyn_route_boundary" = some (ScopeValue.boolean true)) ∧
    ((asyncExitStackMiddleware_call app context_name scope).scope_seen_by_app.lookup
        context_name = some ScopeValue.exit_stack) ∧
    ((asyncExitStackMiddleware_call app context_name scope).aclose_called = true) ∧
    ((asyncExitStackMiddleware_call app context_name scope).stack_closed =
      (app (asyncExitStackMiddleware_call app
        context_name scope).scope_seen_by_app).materializes_stack) ∧
    ((asyncExitStackMiddleware_call app context_name scope).raised =
      (app (asyncExitStackMiddleware_call app
        context_name scope).scope_seen_by_app).raises) := by
  have hcn' : (context_name == "_ravyn_route_boundary") = false :=
    beq_eq_false_iff_ne.mpr hcn
  refine ⟨?_, ?_, rfl, rfl, rfl⟩
  · simp [asyncExitStackMiddleware_call, List.lookup]
  · simp [asyncExitStackMiddleware_call, List.lookup, hcn']

/-- Witness for C9: with a context name distinct from the boundary key, an
app that materializes the stack and raises exception `7` has that exact
exception re-raised. -/
theorem asyncExitStack_middleware_spec_witness :
    (asyncExitStackMiddleware_call
      (fun _ => AppBehaviour.mk true (some (7 : Nat))) "exit_stack" []).raised
      = some 7 :=
  (asyncExitStack_middleware_spec
      (fun _ => AppBehaviour.mk true (some (7 : Nat))) "exit_stack" []
      (by decide)).2.2.2.2

/-- Edges produced for a route's permissions start at the route node and
end at one of the produced permission nodes. -/
theorem buildPermissionNodes_edges (route_id next_id : Nat) (ps : List String) :
    ∀ e ∈ (buildPermissionNodes route_id next_id ps).2.1,
      e.source = route_id ∧
      e.target ∈ (buildPermissionNodes route_id next_id ps).1.map GraphNode.id := by
  induction ps generalizing next_id with
  | nil =>
    intro e he
    simp [buildPermissionNodes] at he
  | cons p rest ih =>
    intro e he
    simp only [buildPermissionNodes, List.mem_cons] at he
    rcases he with he | he
    · subst he
      exact ⟨rfl, by simp [buildPermissionNodes]⟩
    · have h := ih (next_id + 1) e he
      refine ⟨h.1, ?_⟩
      simp only [buildPermissionNodes, List.map_cons, List.mem_cons]
      exact Or.inr h.2

/-- Edges produced for the middleware chain start at the parent node and
end at one of the produced middleware nodes. -/
theorem buildMiddlewareNodes_edges (parent next_id : Nat) (ms : List String) :
    ∀ e ∈ (buildMiddlewareNodes parent next_id ms).2.1,
      e.source = parent ∧
      e.target ∈ (buildMiddlewareNodes parent next_id ms).1.map GraphNode.id := by
  induction ms generalizing next_id with
  | nil =>
    intro e he
    simp [buildMiddlewareNodes] at he
  | cons m rest ih =>
    intro e he
    simp only [buildMiddlewareNodes, List.mem_cons] at he
    rcases he with he | he
    · subst he
      exact ⟨rfl, by simp [buildMiddlewareNodes]⟩
    · have h := ih (next_id + 1) e he
      refine ⟨h.1, ?_⟩
      simp only [buildMiddlewareNodes, List.map_cons, List.mem_cons]
      exact Or.inr h.2

/-- Edges produced for a route list start at the parent node or at a
produced node, and end at a produced node. -/
theorem buildRouteNodes_edges (parent next_id : Nat) (rs : List RouteDesc) :
    ∀ e ∈ (buildRouteNodes parent next_id rs).2.1,
      (e.source = parent ∨
        e.source ∈ (buildRouteNodes parent next_id rs).1.map GraphNode.id) ∧
      e.target ∈ (buildRouteNodes parent next_id rs).1.map GraphNode.id := by
  induction rs generalizing next_id with
  | nil =>
    intro e he
    simp [buildRouteNodes] at he
  | cons r rest ih =>
    intro e he
    simp only [buildRouteNodes, List.cons_append, List.mem_cons,
      List.mem_append] at he
    simp only [buildRouteNodes, List.cons_append, List.map_cons,
      List.map_append, List.mem_cons, List.mem_append]
    rcases he with he | he | he
    · subst he
      exact ⟨Or.inl rfl, Or.inl rfl⟩
    · have h := buildPermissionNodes_edges next_id (next_id + 1) r.permissions e he
      exact ⟨Or.inr (Or.inl h.1), Or.inr (Or.inl h.2)⟩
    · have h := ih (buildPermissionNodes next_id (next_id + 1) r.permissions).2.2 e he
      refine ⟨?_, Or.inr (Or.inr h.2)⟩
      rcases h.1 with h1 | h1
      · exact Or.inl h1
      · exact Or.inr (Or.inr (Or.inr h1))

/-- Edges produced for an include list start at the parent node or at a
produced node, and end at a produced node. -/
theorem buildIncludeNodes_edges (parent next_id : Nat) (incs : List IncludeDesc) :
    ∀ e ∈ (buildIncludeNodes parent next_id incs).2.1,
      (e.source = parent ∨
        e.source ∈ (buildIncludeNodes parent next_id incs).1.map GraphNode.id) ∧
      e.target ∈ (buildIncludeNodes parent next_id incs).1.map GraphNode.id := by
  induction incs generalizing next_id with
  | nil =>
    intro e he
    simp [buildIncludeNodes] at he
  | cons inc rest ih =>
    intro e he
    simp only [buildIncludeNodes, List.cons_append, List.mem_cons,
      List.mem_append] at he
    simp only [buildIncludeNodes, List.cons_append, List.map_cons,
      List.map_append, List.mem_cons, List.mem_append]
    rcases he with he | he | he
    · subst he
      exact ⟨Or.inl rfl, Or.inl rfl⟩
    · have h := buildRouteNodes_edges next_id (next_id + 1) inc.routes e he
      refine ⟨?_, Or.inr (Or.inl h.2)⟩
      rcases h.1 with h1 | h1
      · exact Or.inr (Or.inl h1)
      · exact Or.inr (Or.inr (Or.inl h1))
    · have h := ih (buildRouteNodes next_id (next_id + 1) inc.routes).2.2 e he
      refine ⟨?_, Or.inr (Or.inr h.2)⟩
      rcases h.1 with h1 | h1
      · exact Or.inl h1
      · exact Or.inr (Or.inr (Or.inr h1))

/-- Every edge of the built introspection graph references node ids of the
graph, at both ends. -/
theorem buildGraph_edges_closed (app : AppDesc) :
    ∀ e ∈ (buildGraph app).edges,
      e.source ∈ (buildGraph app).nodes.map GraphNode.id ∧
      e.target ∈ (buildGraph app).nodes.map GraphNode.id := by
  intro e he
  simp only [buildGraph, List.mem_append] at he
  simp only [buildGraph, List.map_cons, List.map_append, List.mem_cons,
    List.mem_append]
  rcases he with (he | he) | he
  · have h := buildMiddlewareNodes_edges 0 1 app.middleware e he
    exact ⟨Or.inl h.1, Or.inr (Or.inl (Or.inl h.2))⟩
  · have h := buildRouteNodes_edges 0
      (buildMiddlewareNodes 0 1 app.middleware).2.2 app.routes e he
    refine ⟨?_, Or.inr (Or.inl (Or.inr h.2))⟩
    rcases h.1 with h1 | h1
    · exact Or.inl h1
    · exact Or.inr (Or.inl (Or.inr h1))
  · have h := buildIncludeNodes_edges 0
      (buildRouteNodes 0
        (buildMiddlewareNodes 0 1 app.middleware).2.2 app.routes).2.2
      app.includes e he
    refine ⟨?_, Or.inr (Or.inr h.2)⟩
    rcases h.1 with h1 | h1
    · exact Or.inl h1
    · exact Or.inr (Or.inr h1)

/-- C5: for every assembled application, the introspection-graph export
`graph.to_dict()` is a well-formed node/edge structure: it has a `nodes`
list and an `edges` list, and every edge's `source` and `target` equals
the `id` of some node in the `nodes` list. -/
theorem graph_to_dict_wellformed (app : AppDesc) :
    ∃ ns es : List Json,
      jsonField ((buildGraph app).to_dict) "nodes" = some (Json.arr ns) ∧
      jsonField ((buildGraph app).to_dict) "edges" = some (Json.arr es) ∧
      ∀ ej ∈ es, ∃ s t : Nat,
        jsonField ej "source" = some (Json.num s) ∧
        jsonField ej "target" = some (Json.num t) ∧
        (∃ nj ∈ ns, jsonField nj "id" = some (Json.num s)) ∧
        (∃ nj ∈ ns, jsonField nj "id" = some (Json.num t)) := by
  refine ⟨(buildGraph app).nodes.map nodeToJson,
          (buildGraph app).edges.map edgeToJson, ?_, ?_, ?_⟩
  · rfl
  · rfl
  · intro ej hej
    rcases List.mem_map.mp hej with ⟨e, he, rfl⟩
    have h := buildGraph_edges_closed app e he
    refine ⟨e.source, e.target, rfl, rfl, ?_, ?_⟩
    · rcases List.mem_map.mp h.1 with ⟨n, hn, hid⟩
      exact ⟨nodeToJson n, List.mem_map.mpr ⟨n, hn, rfl⟩, by rw [← hid]; rfl⟩
    · rcases List.mem_map.mp h.2 with ⟨n, hn, hid⟩
      exact ⟨nodeToJson n, List.mem_map.mpr ⟨n, hn, rfl⟩, by rw [← hid]; rfl⟩

/-- Parsing inverts serialization for a non-empty comma-separated node
sequence followed by its closing bracket. -/
theorem parseNodeItems_round (n : GraphNode) (ns : List GraphNode)
    (rest : List JsonToken) :
    parseNodeItems
        (commaSeparated ((n :: ns).map nodeTokens) ++ (JsonToken.rbrack :: rest))
      = some ((n :: ns).map nodeToJson, rest) := by
  induction ns generalizing n with
  | nil => rfl
  | cons m ms ih =>
    have h := ih m
    simp only [List.map_cons, commaSeparated, nodeTokens, List.append_assoc,
      List.cons_append, List.nil_append] at h ⊢
    simp only [parseNodeItems]
    rw [h]
    rfl

/-- Parsing inverts serialization for a serialized node array. -/
theorem parseNodeArray_round (ns : List GraphNode) (rest : List JsonToken) :
    parseNodeArray (arrayTokens (ns.map nodeTokens) ++ rest)
      = some (ns.map nodeToJson, rest) := by
  cases ns with
  | nil => rfl
  | cons n ms =>
    have h := parseNodeItems_round n ms rest
    cases ms with
    | nil =>
      simp only [List.map_cons, List.map_nil, arrayTokens, commaSeparated,
        nodeTokens, List.append_assoc, List.cons_append, List.nil_append] at h ⊢
      simp only [parseNodeArray]
      exact h
    | cons _ _ =>
      simp only [List.map_cons, arrayTokens, commaSeparated, nodeTokens,
        List.append_assoc, List.cons_append, List.nil_append] at h ⊢
      simp only [parseNodeArray]
      exact h

/-- Parsing inverts serialization for a non-empty comma-separated edge
sequence followed by its closing bracket. -/
theorem parseEdgeItems_round (e : GraphEdge) (es : List GraphEdge)
    (rest : List JsonToken) :
    parseEdgeItems
        (commaSeparated ((e :: es).map edgeTokens) ++ (JsonToken.rbrack :: rest))
      = some ((e :: es).map edgeToJson, rest) := by
  induction es generalizing e with
  | nil => rfl
  | cons f fs ih =>
    have h := ih f
    simp only [List.map_cons, commaSeparated, edgeTokens, List.append_assoc,
      List.cons_append, List.nil_append] at h ⊢
    simp only [parseEdgeItems]
    rw [h]
    rfl

/-- Parsing inverts serialization for a serialized edge array. -/
theorem parseEdgeArray_round (es : List GraphEdge) (rest : List JsonToken) :
    parseEdgeArray (arrayTokens (es.map edgeTokens) ++ rest)
      = some (es.map edgeToJson, rest) := by
  cases es with
  | nil => rfl
  | cons e fs =>
    have h := parseEdgeItems_round e fs rest
    cases fs with
    | nil =>
      simp only [List.map_cons, List.map_nil, arrayTokens, commaSeparated,
        edgeTokens, List.append_assoc, List.cons_append, List.nil_append] at h ⊢
      simp only [parseEdgeArray]
      exact h
    | cons _ _ =>
      simp only [List.map_cons, arrayTokens, commaSeparated, edgeTokens,
        List.append_assoc, List.cons_append, List.nil_append] at h ⊢
      simp only [parseEdgeArray]
      exact h

/-- Parsing a serialized graph export recovers exactly the dict export. -/
theorem loadsGraphJson_to_json (g : Graph) :
    loadsGraphJson g.to_json = some g.to_dict := by
  have hn := parseNodeArray_round g.nodes
    (JsonToken.comma :: JsonToken.str "edges" :: JsonToken.colon ::
      (arrayTokens (g.edges.map edgeTokens) ++ [JsonToken.rbrace]))
  have he := parseEdgeArray_round g.edges [JsonToken.rbrace]
  simp only [Graph.to_json, List.append_assoc, List.cons_append,
    List.nil_append]
  simp only [loadsGraphJson]
  rw [hn]
  simp only [finishGraphParse]
  rw [he]
  rfl

/-- C6: for every assembled application, serializing the introspection
graph to JSON and parsing it back yields exactly the dictionary export:
`loads(graph.to_json()) = graph.to_dict()`. -/
theorem graph_to_json_round_trip (app : AppDesc) :
    loadsGraphJson ((buildGraph app).to_json)
      = some ((buildGraph app).to_dict) :=
  loadsGraphJson_to_json (buildGraph app)

end Ravyn
